import Mathlib

/-!
# Tactics-Turf: verification of the financial ledger and contest engine

A shallow embedding, in Lean 4, of the wallet/ledger, contest and fantasy-roster
logic of the Tactics-Turf fantasy-sports backend, together with theorems about the
behaviour of its operations.

Conventions used throughout the embedding:
* JavaScript `Number` values that hold money or fantasy points are modelled as `Rat`
  (every value the code manipulates here is an exact decimal, and the captain /
  vice-captain multipliers 2.0 and 1.5 are exact in `Rat`);
* timestamps (`Date.now()`-style millisecond counts) are modelled as `Int`;
* Mongo ObjectIds are modelled as `Nat`;
* a JavaScript method that can `throw` is modelled as a function into
  `Except String _`, where the string is the thrown error message;
* a Mongoose document mutation followed by `save()` is modelled as returning the
  updated record.

Source files embedded below:
* `src/fantasy-sports-backend/src/models/Transaction.js` (transaction lifecycle);
* `src/fantasy-sports-backend/src/api/routes/wallet.js` (deposit / withdraw / transfer);
* `src/fantasy-sports-backend/src/api/routes/matches.js` (contest join / leave routes);
* the Contest model (`addParticipant`, `removeParticipant`, `updateLeaderboard`);
* the FantasyTeam model (`addPlayer`, `setCaptain`, `setViceCaptain`, `calculatePoints`).
-/

namespace TacticsTurf

/-! ## Transaction model (`src/fantasy-sports-backend/src/models/Transaction.js`) -/

/-- The `status` enum of the transaction schema. -/
inductive TxStatus
  | pending
  | completed
  | failed
  | cancelled
  | refunded
  deriving DecidableEq, Repr

/-- The fields of a Transaction document that the lifecycle methods read or write.
`retryCount` defaults to 0 and `maxRetries` to 3 in the schema. -/
structure Transaction where
  userId : Nat
  amount : Rat
  status : TxStatus
  failureReason : Option String := none
  retryCount : Nat := 0
  maxRetries : Nat := 3
  nextRetryAt : Option Int := none
  isReversible : Bool := false
  reversedAt : Option Int := none
  reversedBy : Option Nat := none
  reversalReason : Option String := none
  deriving DecidableEq, Repr

/-- `transactionSchema.virtual('canRetry')`: `status === 'failed' && retryCount < maxRetries`. -/
def Transaction.canRetry (t : Transaction) : Bool :=
  t.status == TxStatus.failed && decide (t.retryCount < t.maxRetries)

/-- `transactionSchema.methods.process`: only a `pending` transaction can complete. -/
def Transaction.process (t : Transaction) : Except String Transaction :=
  if t.status != TxStatus.pending then
    Except.error ("Transaction is not pending")
  else
    Except.ok { t with status := TxStatus.completed }

/-- `transactionSchema.methods.fail(reason)`: unconditionally marks the transaction
failed, records the reason, increments `retryCount`, and, when the incremented count
is still below `maxRetries`, schedules `nextRetryAt = Date.now() + 2^retryCount * 1000`
milliseconds (an exponential backoff of `2^retryCount` seconds).  The method performs
no status check and never clears a previously scheduled `nextRetryAt`. -/
def Transaction.fail (t : Transaction) (now : Int) (reason : String) : Transaction :=
  let t1 : Transaction :=
    { t with
      status := TxStatus.failed
      failureReason := some reason
      retryCount := t.retryCount + 1 }
  if t1.retryCount < t1.maxRetries then
    { t1 with nextRetryAt := some (now + 2 ^ t1.retryCount * 1000) }
  else
    t1

/-- `transactionSchema.methods.retry`: throws unless `canRetry`; otherwise resets the
transaction to `pending` and clears `failureReason` and `nextRetryAt`. -/
def Transaction.retry (t : Transaction) : Except String Transaction :=
  if !t.canRetry then
    Except.error ("Transaction cannot be retried")
  else
    Except.ok
      { t with
        status := TxStatus.pending
        failureReason := none
        nextRetryAt := none }

/-- `transactionSchema.methods.reverse(reason, reversedBy)`: throws unless
`isReversible` and `status === 'completed'`; otherwise marks the transaction
`refunded` and records `reversedAt`, `reversedBy` and `reversalReason`. -/
def Transaction.reverse (t : Transaction) (now : Int) (reason : String) (actor : Nat) :
    Except String Transaction :=
  if !t.isReversible then
    Except.error ("Transaction is not reversible")
  else if t.status != TxStatus.completed then
    Except.error ("Only completed transactions can be reversed")
  else
    Except.ok
      { t with
        status := TxStatus.refunded
        reversedAt := some now
        reversedBy := some actor
        reversalReason := some reason }

/-- A transaction document together with the wallet balance of the user that owns it.
`Transaction.reverse` is the whole reversal path in the source: it mutates the
transaction document and saves it, and no code in the repository credits or debits
the owner's wallet as part of a reversal (the `reverse` method has no caller that
touches `user.wallet`), so the balance is carried through unchanged. -/
structure LedgerView where
  tx : Transaction
  ownerBalance : Rat
  deriving DecidableEq, Repr

/-- Reversing a transaction as the system actually performs it: the transaction
document is rewritten by `Transaction.reverse` and the owning user's wallet is not
part of the operation. -/
def LedgerView.reverse (s : LedgerView) (now : Int) (reason : String) (actor : Nat) :
    Except String LedgerView :=
  match s.tx.reverse now reason actor with
  | Except.error e => Except.error e
  | Except.ok t => Except.ok { s with tx := t }

/-! ## Contest model (Contest schema: `addParticipant`, `removeParticipant`,
`updateLeaderboard`) -/

/-- The `entryType` enum of the contest schema. -/
inductive EntryType
  | single
  | multiple
  deriving DecidableEq, Repr

/-- The `status` enum of the contest schema. -/
inductive ContestStatus
  | upcoming
  | live
  | completed
  | cancelled
  deriving DecidableEq, Repr

/-- One entry of `contest.participants`.  Schema defaults: `points = 0`, `prize = 0`,
`isWinner = false`, `rank` undefined. -/
structure Participant where
  userId : Nat
  teamId : Nat
  entryTime : Int
  rank : Option Int := none
  points : Rat := 0
  prize : Rat := 0
  isWinner : Bool := false
  deriving DecidableEq, Repr

/-- One entry of `contest.prizeDistribution`: `{rank, prize, percentage}`. -/
structure PrizeSlot where
  rank : Int
  prize : Rat
  percentage : Rat
  deriving DecidableEq, Repr

/-- One entry of the denormalised `contest.leaderboard` array. -/
structure LeaderboardEntry where
  rank : Option Int
  userId : Nat
  username : String
  teamName : String
  points : Rat
  prize : Rat
  deriving DecidableEq, Repr

/-- The `contest.statistics` sub-document. -/
structure ContestStats where
  totalEntries : Int := 0
  uniqueParticipants : Int := 0
  averagePoints : Rat := 0
  highestPoints : Rat := 0
  lowestPoints : Rat := 0
  deriving DecidableEq, Repr

/-- The fields of a Contest document used by its methods and by the join/leave routes.
`filledSpots` and `totalSpots` are kept as `Int` to mirror JavaScript number
arithmetic exactly (including decrements). -/
structure Contest where
  entryFee : Rat
  totalSpots : Int
  filledSpots : Int := 0
  prizeDistribution : List PrizeSlot
  entryType : EntryType := EntryType.single
  registrationDeadline : Int
  status : ContestStatus := ContestStatus.upcoming
  isActive : Bool := true
  isVisible : Bool := true
  participants : List Participant := []
  leaderboard : List LeaderboardEntry := []
  statistics : ContestStats := {}
  deriving DecidableEq, Repr

/-- `contestSchema.virtual('isFull')`: `filledSpots >= totalSpots`. -/
def Contest.isFull (c : Contest) : Bool :=
  decide (c.filledSpots ≥ c.totalSpots)

/-- `contestSchema.virtual('isRegistrationOpen')`: `new Date() < registrationDeadline
&& !isFull`, with the current time passed in explicitly. -/
def Contest.isRegistrationOpen (c : Contest) (now : Int) : Bool :=
  decide (now < c.registrationDeadline) && !c.isFull

/-- `new Set(participants.map(p => p.userId)).size`: the number of distinct user ids
among the participants. -/
def distinctUserCount (ps : List Participant) : Int :=
  ((ps.map (fun p => p.userId)).dedup).length

/-- `contestSchema.methods.addParticipant(userId, teamId)`: rejects a full contest,
rejects once registration has closed, rejects a duplicate user in a single-entry
contest; otherwise pushes `{userId, teamId, entryTime: new Date()}` (the remaining
participant fields take their schema defaults), increments `filledSpots` and
`statistics.totalEntries`, and recomputes `statistics.uniqueParticipants`. -/
def Contest.addParticipant (c : Contest) (now : Int) (userId teamId : Nat) :
    Except String Contest :=
  if c.isFull then
    Except.error ("Contest is full")
  else if !(c.isRegistrationOpen now) then
    Except.error ("Registration is closed")
  else if (c.participants.find? (fun p => p.userId == userId)).isSome
      && c.entryType == EntryType.single then
    Except.error ("User already registered for this contest")
  else
    let parts := c.participants ++ [{ userId := userId, teamId := teamId, entryTime := now }]
    Except.ok
      { c with
        participants := parts
        filledSpots := c.filledSpots + 1
        statistics :=
          { c.statistics with
            totalEntries := c.statistics.totalEntries + 1
            uniqueParticipants := distinctUserCount parts } }

/-- `contestSchema.methods.removeParticipant(userId)`: removes the first participant
entry with the given user id (throwing if none exists), decrements `filledSpots` and
`statistics.totalEntries`, and recomputes `statistics.uniqueParticipants`. -/
def Contest.removeParticipant (c : Contest) (userId : Nat) : Except String Contest :=
  match c.participants.findIdx? (fun p => p.userId == userId) with
  | none => Except.error ("Participant not found")
  | some i =>
    let parts := c.participants.eraseIdx i
    Except.ok
      { c with
        participants := parts
        filledSpots := c.filledSpots - 1
        statistics :=
          { c.statistics with
            totalEntries := c.statistics.totalEntries - 1
            uniqueParticipants := distinctUserCount parts } }

/-- Stable insertion into a sorted list: `x` is placed before the first element it
may precede, so it lands after every earlier element that compares equal. -/
def stableInsert (le : α → α → Bool) (x : α) : List α → List α
  | [] => [x]
  | y :: ys => if le x y then x :: y :: ys else y :: stableInsert le x ys

/-- Stable insertion sort.  JavaScript's `Array.prototype.sort` is required to be
stable, and the output of a stable sort is uniquely determined by the comparator,
so this models `[...].sort(cmp)` exactly (with `le a b` meaning `cmp(a, b) <= 0`). -/
def stableSort (le : α → α → Bool) : List α → List α
  | [] => []
  | x :: xs => stableInsert le x (stableSort le xs)

/-- The per-participant update performed inside `updateLeaderboard`'s forEach: the
participant at sorted position `rank - 1` gets `rank` written, and, when
`prizeDistribution` has a slot for that rank, its `prize` and `isWinner` are set.
When no slot matches, `prize` and `isWinner` are left as they were. -/
def assignPrize (dist : List PrizeSlot) (rank : Int) (p : Participant) : Participant :=
  match dist.find? (fun s => s.rank == rank) with
  | some s => { p with rank := some rank, prize := s.prize, isWinner := true }
  | none => { p with rank := some rank }

/-- `contestSchema.methods.updateLeaderboard`.  The source sorts a shallow copy of
`participants` with the comparator `(a, b) => b.points - a.points` (a stable sort by
points descending — JavaScript `Array.prototype.sort` is stable), walks the sorted
array writing `rank = index + 1` and the matching prize-distribution entry into the
shared participant objects, rebuilds `leaderboard` in sorted order (participants
carry no `username`/`teamName`, so `p.username || 'Unknown'` and
`p.teamName || 'Team'` always produce the fallback strings), and recomputes the
aggregate statistics when at least one participant exists.

Because the sorted array aliases the same objects as `participants`, the
`participants` array itself keeps its original order but with the updated fields;
this is modelled by tagging each participant with its original index, sorting
stably, assigning rank/prize, and then restoring the original order by index. -/
def Contest.updateLeaderboard (c : Contest) : Contest :=
  let sorted := stableSort (fun a b => b.2.points ≤ a.2.points) (c.participants.enum)
  let ranked := sorted.enum.map
    (fun x => (x.2.1, assignPrize c.prizeDistribution ((x.1 : Int) + 1) x.2.2))
  let newParts := (stableSort (fun a b => a.1 ≤ b.1) ranked).map (fun y => y.2)
  let lb := ranked.map
    (fun y =>
      { rank := y.2.rank
        userId := y.2.userId
        username := "Unknown"
        teamName := "Team"
        points := y.2.points
        prize := y.2.prize : LeaderboardEntry })
  let stats :=
    match newParts with
    | [] => c.statistics
    | q :: qs =>
      { c.statistics with
        averagePoints :=
          ((newParts.map (fun p => p.points)).sum) / (newParts.length : Rat)
        highestPoints := (qs.map (fun p => p.points)).foldl max q.points
        lowestPoints := (qs.map (fun p => p.points)).foldl min q.points }
  { c with participants := newParts, leaderboard := lb, statistics := stats }

/-! ## Wallet routes (`src/api/routes/wallet.js` and the contest join/leave routes
in `src/api/routes/matches.js`), viewed from one user's wallet.

Each route is embedded as its effect on the focal user's state (wallet plus the one
contest being joined or left).  The transfer route touches two wallets; it is
embedded as its two per-wallet effects (`transferOut` for the sender — who is
rejected when `sender.wallet.balance < amount` — and `transferIn` for the
recipient, guarded by the same check on the sender's balance).  Route guards that
involve only other entities (recipient lookup, team-id presence, authentication)
are elided, as they reject before any state is touched. -/

/-- The `user.wallet` sub-document of the User schema. -/
structure Wallet where
  balance : Rat := 0
  totalDeposited : Rat := 0
  totalWithdrawn : Rat := 0
  totalWon : Rat := 0
  deriving DecidableEq, Repr

/-- The state the wallet-mutating routes act on: the focal user's wallet and the
contest involved in join/leave operations. -/
structure UserState where
  wallet : Wallet
  contest : Contest
  deriving DecidableEq, Repr

/-- `POST /api/wallet/deposit`: rejects amounts outside [10, 100000]; the payment
result is simulated as success in the source, after which the wallet is credited
and `totalDeposited` increased. -/
def depositOp (s : UserState) (amount : Rat) : Except String UserState :=
  if amount < 10 || amount > 100000 then
    Except.error ("Amount must be between 10 and 100000")
  else
    Except.ok
      { s with
        wallet :=
          { s.wallet with
            balance := s.wallet.balance + amount
            totalDeposited := s.wallet.totalDeposited + amount } }

/-- `POST /api/wallet/withdraw`: rejects amounts outside [100, 50000]; rejects with
"Insufficient balance" when `user.wallet.balance < amount`; otherwise debits the
wallet and increases `totalWithdrawn`. -/
def withdrawOp (s : UserState) (amount : Rat) : Except String UserState :=
  if amount < 100 || amount > 50000 then
    Except.error ("Withdrawal amount must be between 100 and 50000")
  else if s.wallet.balance < amount then
    Except.error ("Insufficient balance")
  else
    Except.ok
      { s with
        wallet :=
          { s.wallet with
            balance := s.wallet.balance - amount
            totalWithdrawn := s.wallet.totalWithdrawn + amount } }

/-- `POST /api/wallet/transfer`, sender side: rejects amounts outside [10, 10000];
rejects with "Insufficient balance" when the sender's balance is below the amount;
otherwise debits the sender. -/
def transferOutOp (s : UserState) (amount : Rat) : Except String UserState :=
  if amount < 10 || amount > 10000 then
    Except.error ("Transfer amount must be between 10 and 10000")
  else if s.wallet.balance < amount then
    Except.error ("Insufficient balance")
  else
    Except.ok
      { s with wallet := { s.wallet with balance := s.wallet.balance - amount } }

/-- `POST /api/wallet/transfer`, recipient side: the same guards run against the
sender's balance (passed in), after which the recipient is credited. -/
def transferInOp (s : UserState) (amount senderBalance : Rat) : Except String UserState :=
  if amount < 10 || amount > 10000 then
    Except.error ("Transfer amount must be between 10 and 10000")
  else if senderBalance < amount then
    Except.error ("Insufficient balance")
  else
    Except.ok
      { s with wallet := { s.wallet with balance := s.wallet.balance + amount } }

/-- `POST /api/contests/:id/join`: in source order, rejects a contest that is not
active and visible, rejects when registration is closed, rejects with "Insufficient
wallet balance" when `user.wallet.balance < contest.entryFee`, rejects a duplicate
user in a single-entry contest, then calls `contest.addParticipant` (whose own
guards may still throw, leaving the wallet untouched) and only afterwards deducts
the entry fee from the wallet. -/
def joinContestOp (s : UserState) (now : Int) (userId teamId : Nat) :
    Except String UserState :=
  let c := s.contest
  if !(c.isActive && c.isVisible) then
    Except.error ("Contest is not available for registration")
  else if !(c.isRegistrationOpen now) then
    Except.error ("Contest registration is closed")
  else if s.wallet.balance < c.entryFee then
    Except.error ("Insufficient wallet balance")
  else if c.entryType == EntryType.single
      && (c.participants.find? (fun p => p.userId == userId)).isSome then
    Except.error ("You have already joined this contest")
  else
    match c.addParticipant now userId teamId with
    | Except.error e => Except.error e
    | Except.ok c' =>
      Except.ok
        { wallet := { s.wallet with balance := s.wallet.balance - c.entryFee }
          contest := c' }

/-- `POST /api/contests/:id/leave`: rejects unless the contest is still `upcoming`,
rejects a non-participant, then calls `contest.removeParticipant` and refunds the
entry fee to the wallet. -/
def leaveContestOp (s : UserState) (userId : Nat) : Except String UserState :=
  let c := s.contest
  if c.status != ContestStatus.upcoming then
    Except.error ("Cannot leave contest after it has started")
  else if (c.participants.find? (fun p => p.userId == userId)).isNone then
    Except.error ("You are not a participant in this contest")
  else
    match c.removeParticipant userId with
    | Except.error e => Except.error e
    | Except.ok c' =>
      Except.ok
        { wallet := { s.wallet with balance := s.wallet.balance + c.entryFee }
          contest := c' }

/-- One invocation of a wallet-mutating route, from the focal user's point of view. -/
inductive WalletOp
  | deposit (amount : Rat)
  | withdraw (amount : Rat)
  | transferOut (amount : Rat)
  | transferIn (amount senderBalance : Rat)
  | joinContest (now : Int) (userId teamId : Nat)
  | leaveContest (userId : Nat)
  deriving Repr

/-- Dispatch one route invocation. -/
def applyOp (s : UserState) : WalletOp → Except String UserState
  | WalletOp.deposit amount => depositOp s amount
  | WalletOp.withdraw amount => withdrawOp s amount
  | WalletOp.transferOut amount => transferOutOp s amount
  | WalletOp.transferIn amount senderBalance => transferInOp s amount senderBalance
  | WalletOp.joinContest now userId teamId => joinContestOp s now userId teamId
  | WalletOp.leaveContest userId => leaveContestOp s userId

/-- Run a sequence of route invocations; a rejected invocation leaves the state
exactly as it was (each route rejects before mutating anything). -/
def runOps (s : UserState) : List WalletOp → UserState
  | [] => s
  | op :: ops =>
    match applyOp s op with
    | Except.ok s' => runOps s' ops
    | Except.error _ => runOps s ops

/-! ## FantasyTeam model (`addPlayer`, `removePlayer`, `setCaptain`,
`setViceCaptain`, `calculatePoints`) -/

/-- The `sport` enum shared by the schemas. -/
inductive Sport
  | cricket
  | football
  | basketball
  | tennis
  deriving DecidableEq, Repr

/-- The `status` enum of the fantasy-team schema. -/
inductive TeamStatus
  | draft
  | submitted
  | locked
  | scored
  deriving DecidableEq, Repr

/-- The `performance` sub-document of a roster player; every counter defaults to 0. -/
structure Performance where
  runs : Int := 0
  wickets : Int := 0
  catches : Int := 0
  stumping : Int := 0
  runOut : Int := 0
  goals : Int := 0
  assists : Int := 0
  cleanSheets : Int := 0
  yellowCards : Int := 0
  redCards : Int := 0
  deriving DecidableEq, Repr

/-- One entry of `fantasyTeam.players`. -/
structure RosterPlayer where
  playerId : Nat
  name : String
  role : String
  team : String
  price : Rat
  isCaptain : Bool := false
  isViceCaptain : Bool := false
  points : Rat := 0
  performance : Performance := {}
  deriving DecidableEq, Repr

/-- The Player document passed into `addPlayer`. -/
structure Player where
  id : Nat
  name : String
  role : String
  teamName : String
  price : Rat
  deriving DecidableEq, Repr

/-- The fields of a FantasyTeam document used by its methods.  Schema defaults:
`teamValue = 0`, `remainingBudget = 100`, `status = draft`. -/
structure FantasyTeam where
  sport : Sport
  players : List RosterPlayer := []
  captain : Option Nat := none
  viceCaptain : Option Nat := none
  totalPoints : Rat := 0
  status : TeamStatus := TeamStatus.draft
  teamValue : Rat := 0
  remainingBudget : Rat := 100
  scoredAt : Option Int := none
  deriving DecidableEq, Repr

/-- `fantasyTeamSchema.methods.addPlayer(player)`: rejects a non-draft team, a
duplicate player, a player whose price would push `teamValue` past 100, and a full
squad of 25; otherwise appends the player (with a price snapshot and default flags)
and updates `teamValue` and `remainingBudget = 100 - teamValue`. -/
def FantasyTeam.addPlayer (t : FantasyTeam) (player : Player) :
    Except String FantasyTeam :=
  if t.status != TeamStatus.draft then
    Except.error ("Cannot modify locked team")
  else if (t.players.find? (fun p => p.playerId == player.id)).isSome then
    Except.error ("Player already in team")
  else if t.teamValue + player.price > 100 then
    Except.error ("Insufficient budget")
  else if t.players.length ≥ 25 then
    Except.error ("Maximum team size reached")
  else
    Except.ok
      { t with
        players := t.players ++
          [{ playerId := player.id
             name := player.name
             role := player.role
             team := player.teamName
             price := player.price }]
        teamValue := t.teamValue + player.price
        remainingBudget := 100 - (t.teamValue + player.price) }

/-- The forEach inside `setCaptain`: every player's `isCaptain` flag is cleared and
then the first player whose id matches (the one `find` returned) is flagged. -/
def markCaptain : List RosterPlayer → Nat → List RosterPlayer
  | [], _ => []
  | p :: ps, pid =>
    if p.playerId == pid then
      { p with isCaptain := true } :: ps.map (fun q => { q with isCaptain := false })
    else
      { p with isCaptain := false } :: markCaptain ps pid

/-- The forEach inside `setViceCaptain`, analogously for `isViceCaptain`. -/
def markViceCaptain : List RosterPlayer → Nat → List RosterPlayer
  | [], _ => []
  | p :: ps, pid =>
    if p.playerId == pid then
      { p with isViceCaptain := true } :: ps.map (fun q => { q with isViceCaptain := false })
    else
      { p with isViceCaptain := false } :: markViceCaptain ps pid

/-- `fantasyTeamSchema.methods.setCaptain(playerId)`: rejects a non-draft team and
an absent player; otherwise clears every `isCaptain` flag, flags the matching
player, and records `captain = playerId`.  No check against `viceCaptain` is made. -/
def FantasyTeam.setCaptain (t : FantasyTeam) (pid : Nat) : Except String FantasyTeam :=
  if t.status != TeamStatus.draft then
    Except.error ("Cannot modify locked team")
  else if (t.players.find? (fun p => p.playerId == pid)).isNone then
    Except.error ("Player not found in team")
  else
    Except.ok { t with players := markCaptain t.players pid, captain := some pid }

/-- `fantasyTeamSchema.methods.setViceCaptain(playerId)`: as `setCaptain`, for the
vice-captain flag and the `viceCaptain` field.  No check against `captain` is made. -/
def FantasyTeam.setViceCaptain (t : FantasyTeam) (pid : Nat) :
    Except String FantasyTeam :=
  if t.status != TeamStatus.draft then
    Except.error ("Cannot modify locked team")
  else if (t.players.find? (fun p => p.playerId == pid)).isNone then
    Except.error ("Player not found in team")
  else
    Except.ok { t with players := markViceCaptain t.players pid, viceCaptain := some pid }

/-- The sport-specific raw score of one player inside `calculatePoints`: cricket is
`runs*1 + wickets*10 + catches*10 + stumping*10 + runOut*6`, football is
`goals*10 + assists*6 + cleanSheets*4 + yellowCards*(-1) + redCards*(-3)`, all other
sports contribute 0. -/
def rawPoints (sport : Sport) (perf : Performance) : Rat :=
  match sport with
  | Sport.cricket =>
    (perf.runs : Rat) * 1 + (perf.wickets : Rat) * 10 + (perf.catches : Rat) * 10
      + (perf.stumping : Rat) * 10 + (perf.runOut : Rat) * 6
  | Sport.football =>
    (perf.goals : Rat) * 10 + (perf.assists : Rat) * 6 + (perf.cleanSheets : Rat) * 4
      + (perf.yellowCards : Rat) * (-1) + (perf.redCards : Rat) * (-3)
  | _ => 0

/-- The multiplier branch of `calculatePoints`: `if (player.isCaptain) *= 2 else if
(player.isViceCaptain) *= 1.5` — the captain branch shadows the vice-captain one. -/
def playerMultiplier (p : RosterPlayer) : Rat :=
  if p.isCaptain then 2 else if p.isViceCaptain then 3 / 2 else 1

/-- `fantasyTeamSchema.methods.calculatePoints()`: writes
`points = multiplier * rawPoints` into every player, sums the written values into
`totalPoints`, and marks the team `scored` at the given time. -/
def FantasyTeam.calculatePoints (t : FantasyTeam) (now : Int) : FantasyTeam :=
  let newPlayers := t.players.map
    (fun p => { p with points := playerMultiplier p * rawPoints t.sport p.performance })
  { t with
    players := newPlayers
    totalPoints := (newPlayers.map (fun p => p.points)).sum
    status := TeamStatus.scored
    scoredAt := some now }

/-! ## Theorems: transaction lifecycle (claims C1, C6, C7) -/

/-- A completed, reversible transaction over amount 50 whose owner holds balance 100:
the input on which the reversal claim's wallet clause is tested. -/
def reverseCx : LedgerView :=
  { tx := { userId := 3, amount := 50, status := TxStatus.completed, isReversible := true }
    ownerBalance := 100 }

/-- C1, counterexample: reversing a completed, reversible transaction of amount 50
succeeds but leaves the owner's balance at 100; the claimed inverse credit/debit
(which would make the balance `100 - 50`) never happens — no code in the repository
touches the wallet during `reverse`. -/
theorem reverse_no_wallet_movement :
    (reverseCx.reverse 7000 "chargeback" 9).map (fun s => s.ownerBalance) = Except.ok 100
    ∧ ¬ (100 : Rat) = 100 - 50 := by
  refine ⟨rfl, by norm_num⟩

/-- C1, amended: `reverse(reason, reversedBy)` succeeds exactly when the transaction
is `completed` and `isReversible`; on success it sets `status = refunded` and records
`reversedAt`, `reversedBy` and `reversalReason`, but performs no wallet movement —
the owning user's balance is unchanged. -/
theorem reverse_spec (s : LedgerView) (now : Int) (reason : String) (actor : Nat) :
    ((s.reverse now reason actor).isOk = true ↔
      s.tx.isReversible = true ∧ s.tx.status = TxStatus.completed)
    ∧ (∀ s', s.reverse now reason actor = Except.ok s' →
        s'.tx.status = TxStatus.refunded
        ∧ s'.tx.reversedAt = some now
        ∧ s'.tx.reversedBy = some actor
        ∧ s'.tx.reversalReason = some reason
        ∧ s'.tx.amount = s.tx.amount
        ∧ s'.ownerBalance = s.ownerBalance) := by
  by_cases hrev : s.tx.isReversible = true
  · by_cases hst : s.tx.status = TxStatus.completed
    · refine ⟨by simp [LedgerView.reverse, Transaction.reverse, hrev, hst, Except.isOk,
        Except.toBool], ?_⟩
      intro s' hs'
      simp [LedgerView.reverse, Transaction.reverse, hrev, hst] at hs'
      subst hs'
      simp
    · simp [LedgerView.reverse, Transaction.reverse, hrev, hst, Except.isOk, Except.toBool]
  · simp [LedgerView.reverse, Transaction.reverse, hrev, Except.isOk, Except.toBool]

/-- C1, witness for the amended theorem at the concrete reversible transaction. -/
theorem reverse_spec_witness :
    (reverseCx.reverse 7000 "chargeback" 9).isOk = true :=
  (reverse_spec reverseCx 7000 "chargeback" 9).1.mpr (by decide)

/-- A completed (not pending) transaction with two recorded failures and a stale
`nextRetryAt`, used to test the claimed `fail` preconditions. -/
def failCx : Transaction :=
  { userId := 2, amount := 75, status := TxStatus.completed,
    retryCount := 2, maxRetries := 3, nextRetryAt := some 5000 }

/-- C6, counterexample: `fail` carries no status precondition — applied to a
`completed` transaction it still marks it failed (the claim says it is valid only
from `pending`); moreover, on this third failure (`retryCount` reaches
`maxRetries = 3`) `nextRetryAt` is not unset but keeps its stale value 5000. -/
theorem fail_applies_from_completed :
    failCx.status = TxStatus.completed
    ∧ (failCx.fail 9000 "gateway timeout").status = TxStatus.failed
    ∧ (failCx.fail 9000 "gateway timeout").retryCount = 3
    ∧ (failCx.fail 9000 "gateway timeout").nextRetryAt = some 5000
    ∧ some (5000 : Int) ≠ none := by
  decide

/-- C6, amended: `fail(reason)` applies from any status (no precondition is
checked); it sets `status = failed` and `failureReason = reason`, increments
`retryCount`, and sets `nextRetryAt` to now plus `2^retryCount` seconds (in
milliseconds) if and only if the incremented `retryCount` is still below
`maxRetries`, leaving `nextRetryAt` at its previous value otherwise. -/
theorem fail_spec (t : Transaction) (now : Int) (reason : String) :
    (t.fail now reason).status = TxStatus.failed
    ∧ (t.fail now reason).failureReason = some reason
    ∧ (t.fail now reason).retryCount = t.retryCount + 1
    ∧ (t.retryCount + 1 < t.maxRetries →
        (t.fail now reason).nextRetryAt = some (now + 2 ^ (t.retryCount + 1) * 1000))
    ∧ (¬ t.retryCount + 1 < t.maxRetries →
        (t.fail now reason).nextRetryAt = t.nextRetryAt) := by
  by_cases h : t.retryCount + 1 < t.maxRetries <;>
    simp [Transaction.fail, h]

/-- C6, witness for the amended theorem: one failure below the retry cap schedules
the backoff, and the failure that reaches the cap leaves `nextRetryAt` alone. -/
theorem fail_spec_witness :
    (failCx.fail 9000 "gateway timeout").nextRetryAt = failCx.nextRetryAt
    ∧ ({ failCx with retryCount := 0 }.fail 9000 "gw").nextRetryAt
        = some (9000 + 2 ^ 1 * 1000) := by
  refine ⟨(fail_spec failCx 9000 "gateway timeout").2.2.2.2 (by decide), ?_⟩
  exact (fail_spec { failCx with retryCount := 0 } 9000 "gw").2.2.2.1 (by decide)

/-- C7: `retry` succeeds exactly when `status = failed` and
`retryCount < maxRetries`; on success it resets the transaction to `pending` and
clears `failureReason` and `nextRetryAt`; in every other state it throws, leaving
the document unchanged. -/
theorem retry_spec (t : Transaction) :
    ((t.retry).isOk = true ↔ t.status = TxStatus.failed ∧ t.retryCount < t.maxRetries)
    ∧ (∀ t', t.retry = Except.ok t' →
        t' = { t with
                status := TxStatus.pending
                failureReason := none
                nextRetryAt := none })
    ∧ (¬ (t.status = TxStatus.failed ∧ t.retryCount < t.maxRetries) →
        t.retry = Except.error ("Transaction cannot be retried")) := by
  by_cases h : t.status = TxStatus.failed ∧ t.retryCount < t.maxRetries
  · have hc : t.canRetry = true := by
      simp [Transaction.canRetry, h.1, h.2]
    refine ⟨by simp [Transaction.retry, hc, h, Except.isOk, Except.toBool], ?_, fun hn => absurd h hn⟩
    intro t' ht'
    simpa [Transaction.retry, hc] using ht'.symm
  · have hc : t.canRetry = false := by
      rcases Decidable.not_and_iff_or_not.mp h with h1 | h1 <;>
        simp [Transaction.canRetry, h1]
    refine ⟨by simp [Transaction.retry, hc, h, Except.isOk, Except.toBool], ?_,
      fun _ => by simp [Transaction.retry, hc]⟩
    intro t' ht'
    simp [Transaction.retry, hc] at ht'

/-- A transaction that failed once with retries remaining. -/
def retryOkTx : Transaction :=
  { userId := 1, amount := 25, status := TxStatus.failed, failureReason := some ("g"),
    retryCount := 1, maxRetries := 3, nextRetryAt := some 99 }

/-- A fresh pending transaction put through three consecutive failures with
`maxRetries = 3` (the exhausted-retries scenario). -/
def exhaustedTx : Transaction :=
  (((({ userId := 1, amount := 25,
        status := TxStatus.pending : Transaction }).fail 1000 "e1").fail 2000 "e2").fail
    3000 "e3")

/-- C7, witness: after three failures with `maxRetries = 3` a further `retry` throws
and the transaction stays permanently failed, while a transaction with retries
remaining does restart. -/
theorem retry_spec_witness :
    exhaustedTx.retry = Except.error ("Transaction cannot be retried")
    ∧ exhaustedTx.status = TxStatus.failed
    ∧ (retryOkTx.retry).isOk = true := by
  refine ⟨(retry_spec exhaustedTx).2.2 (by decide), by decide,
    (retry_spec retryOkTx).1.mpr (by decide)⟩

/-! ## Theorems: contest admission and leaderboard (claims C3, C4, C5) -/

/-- C3: `addParticipant(userId, teamId)` fails when the contest is full
(`filledSpots ≥ totalSpots`), fails when the current time is at or past
`registrationDeadline`, and fails when `entryType = single` and the user is already
among the participants; on success it appends exactly one participant entry (with
the schema-default score fields) and increments `filledSpots` by exactly one. -/
theorem addParticipant_spec (c : Contest) (now : Int) (userId teamId : Nat) :
    (c.filledSpots ≥ c.totalSpots → (c.addParticipant now userId teamId).isOk = false)
    ∧ (now ≥ c.registrationDeadline → (c.addParticipant now userId teamId).isOk = false)
    ∧ (c.entryType = EntryType.single → (∃ p ∈ c.participants, p.userId = userId) →
        (c.addParticipant now userId teamId).isOk = false)
    ∧ (∀ c', c.addParticipant now userId teamId = Except.ok c' →
        c'.participants
          = c.participants ++ [{ userId := userId, teamId := teamId, entryTime := now }]
        ∧ c'.filledSpots = c.filledSpots + 1) := by
  by_cases hfull : c.isFull
  · simp [Contest.addParticipant, hfull, Except.isOk, Except.toBool]
  · by_cases hreg : c.isRegistrationOpen now
    · by_cases hdup : ((c.participants.find? (fun p => p.userId == userId)).isSome
        && c.entryType == EntryType.single) = true
      · simp only [Contest.addParticipant, hfull, hreg, hdup, Bool.false_eq_true,
          if_false, Bool.not_true, if_true]
        refine ⟨fun _ => rfl, fun _ => rfl, fun _ _ => rfl, ?_⟩
        intro c' hc'
        simp at hc'
      · simp only [Contest.addParticipant, hfull, hreg, hdup, Bool.false_eq_true,
          if_false, Bool.not_true, if_true]
        refine ⟨?_, ?_, ?_, ?_⟩
        · intro hge
          exact absurd (by simp [Contest.isFull, hge]) hfull
        · intro hlate
          have : c.isRegistrationOpen now = false := by
            simp [Contest.isRegistrationOpen]
            intro hlt
            omega
          simp [this] at hreg
        · intro hsingle hex
          apply absurd _ hdup
          obtain ⟨p, hp, hpu⟩ := hex
          have h1 : (c.participants.find? (fun p => p.userId == userId)).isSome := by
            rw [List.find?_isSome]
            exact ⟨p, hp, by simp [hpu]⟩
          simp [h1, hsingle]
        · intro c' hc'
          simp only [Except.ok.injEq] at hc'
          subst hc'
          simp
    · simp [Contest.addParticipant, hfull, hreg, Except.isOk, Except.toBool]

/-- A full head-to-head contest (2 of 2 spots taken). -/
def fullContest : Contest :=
  { entryFee := 10, totalSpots := 2, filledSpots := 2,
    prizeDistribution := [{ rank := 1, prize := 18, percentage := 90 }],
    registrationDeadline := 1000,
    participants :=
      [{ userId := 1, teamId := 11, entryTime := 10 },
       { userId := 2, teamId := 12, entryTime := 20 }] }

/-- A single-entry contest with open spots in which user 1 already holds an entry. -/
def singleEntryContest : Contest :=
  { entryFee := 10, totalSpots := 5, filledSpots := 1,
    prizeDistribution := [{ rank := 1, prize := 40, percentage := 80 }],
    registrationDeadline := 1000,
    entryType := EntryType.single,
    participants := [{ userId := 1, teamId := 11, entryTime := 10 }] }

/-- C3, witness: a full contest rejects, a join at the deadline rejects, a duplicate
single-entry user rejects, and a fresh user joining an open contest is appended with
`filledSpots` bumped by one. -/
theorem addParticipant_spec_witness :
    (fullContest.addParticipant 100 3 13).isOk = false
    ∧ (singleEntryContest.addParticipant 1000 3 13).isOk = false
    ∧ (singleEntryContest.addParticipant 100 1 13).isOk = false
    ∧ ((singleEntryContest.addParticipant 100 2 12).map (fun c' => c'.filledSpots)
        = Except.ok 2) := by
  refine ⟨(addParticipant_spec fullContest 100 3 13).1 (by decide),
    (addParticipant_spec singleEntryContest 1000 3 13).2.1 (by decide),
    (addParticipant_spec singleEntryContest 100 1 13).2.2.1 rfl
      ⟨{ userId := 1, teamId := 11, entryTime := 10 }, by decide, rfl⟩,
    ?_⟩
  have h := (addParticipant_spec singleEntryContest 100 2 12).2.2.2
  rcases hres : singleEntryContest.addParticipant 100 2 12 with e | c'
  · have hok : (singleEntryContest.addParticipant 100 2 12).isOk = true := by decide
    rw [hres] at hok
    simp [Except.isOk, Except.toBool] at hok
  · simp only [Except.map, (h c' hres).2, Except.ok.injEq]
    decide

/-- The prize-distribution scenario contest: participants in entry order A (user 1,
50 points), B (user 2, 80 points), C (user 3, 80 points), with prizes 100 for rank 1
and 50 for rank 2. -/
def scenarioContest : Contest :=
  { entryFee := 10, totalSpots := 10, filledSpots := 3,
    prizeDistribution :=
      [{ rank := 1, prize := 100, percentage := 50 },
       { rank := 2, prize := 50, percentage := 25 }],
    registrationDeadline := 1000,
    participants :=
      [{ userId := 1, teamId := 11, entryTime := 10, points := 50 },
       { userId := 2, teamId := 12, entryTime := 20, points := 80 },
       { userId := 3, teamId := 13, entryTime := 30, points := 80 }] }

/-- C4: on the scenario contest, `updateLeaderboard` orders the leaderboard
B (rank 1, prize 100), C (rank 2, prize 50), A (rank 3, prize 0): points descending,
the tie between B and C broken in favour of the earlier entrant B by sort stability,
ranks assigned 1..3, and the prizeless rank keeping its default prize 0. -/
theorem updateLeaderboard_scenario :
    (scenarioContest.updateLeaderboard).leaderboard.map
        (fun e => (e.userId, e.rank, e.prize))
      = [(2, some 1, (100 : Rat)), (3, some 2, 50), (1, some 3, 0)]
    ∧ (scenarioContest.updateLeaderboard).participants.map
        (fun p => (p.userId, p.rank, p.prize))
      = [(1, some 3, (0 : Rat)), (2, some 1, 100), (3, some 2, 50)] := by
  decide

/-- Membership is stable under `stableInsert`. -/
theorem mem_stableInsert (le : α → α → Bool) (x y : α) (l : List α) :
    y ∈ stableInsert le x l ↔ y = x ∨ y ∈ l := by
  induction l with
  | nil => simp [stableInsert]
  | cons z zs ih =>
    by_cases h : le x z
    · simp [stableInsert, h]
    · simp [stableInsert, h, ih]
      tauto

/-- `stableSort` permutes the list, so membership is preserved. -/
theorem mem_stableSort (le : α → α → Bool) (y : α) (l : List α) :
    y ∈ stableSort le l ↔ y ∈ l := by
  induction l with
  | nil => simp [stableSort]
  | cons z zs ih =>
    simp [stableSort, mem_stableInsert, ih]

/-- An element of `l.enum` projects to an element of `l`. -/
theorem mem_of_mem_enum {l : List α} {p : Nat × α} (h : p ∈ l.enum) : p.2 ∈ l := by
  obtain ⟨i, x⟩ := p
  have h' := List.mem_enumFrom (by simpa [List.enum] using h)
  simp only at h'
  obtain ⟨-, hi, hx⟩ := h'
  simp only
  rw [hx]
  exact List.getElem_mem _

/-- A contest carrying stale prize data from an earlier leaderboard run: user 1 once
won rank 1 (prize 100, `isWinner`), and user 2's points have since risen to 90. -/
def staleContest : Contest :=
  { entryFee := 10, totalSpots := 10, filledSpots := 2,
    prizeDistribution := [{ rank := 1, prize := 100, percentage := 50 }],
    registrationDeadline := 1000,
    participants :=
      [{ userId := 1, teamId := 11, entryTime := 10, rank := some 1, points := 10,
         prize := 100, isWinner := true },
       { userId := 2, teamId := 12, entryTime := 20, points := 90 }] }

/-- C5, counterexample: rerunning `updateLeaderboard` on the stale contest ranks
user 1 second — a rank with no prize slot — yet user 1 keeps prize 100 and
`isWinner = true`, where the claim demands prize 0: the source only assigns fields
inside `if (prizeInfo)` and never resets the losers. -/
theorem updateLeaderboard_stale_prize :
    ((staleContest.updateLeaderboard).participants.find? (fun p => p.userId == 1)).map
        (fun p => (p.rank, p.prize, p.isWinner))
      = some (some 2, (100 : Rat), true)
    ∧ (100 : Rat) ≠ 0 := by
  exact ⟨by decide, by decide⟩

/-- C5, amended: after `updateLeaderboard`, every resulting participant is an
original participant stamped with some rank `r ≥ 1`; when `prizeDistribution` has a
slot for `r` the participant's prize and `isWinner` are set from that slot, and
otherwise `prize` and `isWinner` retain their previous values (so `prize = 0` holds
only for participants that had no stale prize, such as fresh entrants). -/
theorem updateLeaderboard_prize_assignment (c : Contest) :
    ∀ x ∈ (c.updateLeaderboard).participants,
      ∃ r p₀, p₀ ∈ c.participants ∧ 1 ≤ r
        ∧ x = assignPrize c.prizeDistribution r p₀
        ∧ x.rank = some r
        ∧ ((∃ s, c.prizeDistribution.find? (fun s => s.rank == r) = some s
              ∧ x.prize = s.prize ∧ x.isWinner = true)
          ∨ (c.prizeDistribution.find? (fun s => s.rank == r) = none
              ∧ x.prize = p₀.prize ∧ x.isWinner = p₀.isWinner)) := by
  intro x hx
  simp only [Contest.updateLeaderboard, List.mem_map] at hx
  obtain ⟨y, hy, hyx⟩ := hx
  rw [mem_stableSort] at hy
  simp only [List.mem_map] at hy
  obtain ⟨z, hz, hzy⟩ := hy
  have hz2 : z.2 ∈ stableSort (fun a b => b.2.points ≤ a.2.points) (c.participants.enum) :=
    mem_of_mem_enum hz
  rw [mem_stableSort] at hz2
  have hp0 : z.2.2 ∈ c.participants := mem_of_mem_enum hz2
  refine ⟨(z.1 : Int) + 1, z.2.2, hp0, by omega, ?_, ?_, ?_⟩
  · rw [← hyx, ← hzy]
  · rw [← hyx, ← hzy]
    unfold assignPrize
    cases hfind : c.prizeDistribution.find? (fun s => s.rank == (z.1 : Int) + 1) with
    | none => simp [hfind]
    | some s => simp [hfind]
  · rw [← hyx, ← hzy]
    unfold assignPrize
    rcases hfind : c.prizeDistribution.find? (fun s => s.rank == (z.1 : Int) + 1) with _ | s
    · right
      simp [hfind]
    · left
      refine ⟨s, hfind, ?_, ?_⟩ <;> simp [hfind]

/-- C5, witness for the amended theorem: the updated entry of user 2 in the scenario
contest is an original participant stamped with rank 1 and the rank-1 prize. -/
theorem updateLeaderboard_prize_assignment_witness :
    ∃ r p₀, p₀ ∈ scenarioContest.participants ∧ 1 ≤ r
      ∧ ({ userId := 2, teamId := 12, entryTime := 20, rank := some 1, points := 80,
            prize := 100, isWinner := true } : Participant)
          = assignPrize scenarioContest.prizeDistribution r p₀
      ∧ ({ userId := 2, teamId := 12, entryTime := 20, rank := some 1, points := 80,
            prize := 100, isWinner := true } : Participant).rank = some r
      ∧ ((∃ s, scenarioContest.prizeDistribution.find? (fun s => s.rank == r) = some s
            ∧ ({ userId := 2, teamId := 12, entryTime := 20, rank := some 1, points := 80,
                  prize := 100, isWinner := true } : Participant).prize = s.prize
            ∧ ({ userId := 2, teamId := 12, entryTime := 20, rank := some 1, points := 80,
                  prize := 100, isWinner := true } : Participant).isWinner = true)
        ∨ (scenarioContest.prizeDistribution.find? (fun s => s.rank == r) = none
            ∧ ({ userId := 2, teamId := 12, entryTime := 20, rank := some 1, points := 80,
                  prize := 100, isWinner := true } : Participant).prize = p₀.prize
            ∧ ({ userId := 2, teamId := 12, entryTime := 20, rank := some 1, points := 80,
                  prize := 100, isWinner := true } : Participant).isWinner = p₀.isWinner)) :=
  updateLeaderboard_prize_assignment scenarioContest _ (by decide)

/-! ## Theorems: wallet balance invariant (claim C2) -/

/-- `addParticipant` never touches `entryFee`. -/
theorem addParticipant_entryFee (c : Contest) (now : Int) (u t : Nat) (c' : Contest)
    (h : c.addParticipant now u t = Except.ok c') : c'.entryFee = c.entryFee := by
  unfold Contest.addParticipant at h
  split at h
  · simp at h
  · split at h
    · simp at h
    · split at h
      · simp at h
      · simp only [Except.ok.injEq] at h
        subst h
        rfl

/-- `removeParticipant` never touches `entryFee`. -/
theorem removeParticipant_entryFee (c : Contest) (u : Nat) (c' : Contest)
    (h : c.removeParticipant u = Except.ok c') : c'.entryFee = c.entryFee := by
  unfold Contest.removeParticipant at h
  split at h
  · simp at h
  · simp only [Except.ok.injEq] at h
    subst h
    rfl

/-- A successful route invocation keeps the balance non-negative (given a
non-negative entry fee, as enforced by the contest schema's `min: 0`) and
preserves the contest's entry fee. -/
theorem applyOp_nonneg (s s' : UserState) (op : WalletOp)
    (hb : 0 ≤ s.wallet.balance) (hf : 0 ≤ s.contest.entryFee)
    (h : applyOp s op = Except.ok s') :
    0 ≤ s'.wallet.balance ∧ s'.contest.entryFee = s.contest.entryFee := by
  cases op with
  | deposit amount =>
    simp only [applyOp, depositOp] at h
    split at h
    · simp at h
    · rename_i hguard
      simp only [Bool.or_eq_true, decide_eq_true_eq, not_or] at hguard
      simp only [Except.ok.injEq] at h
      subst h
      exact ⟨by simp; linarith [hguard.1], rfl⟩
  | withdraw amount =>
    simp only [applyOp, withdrawOp] at h
    split at h
    · simp at h
    · split at h
      · simp at h
      · rename_i hguard hbal
        simp only [decide_eq_true_eq, not_lt] at hbal
        simp only [Except.ok.injEq] at h
        subst h
        exact ⟨by simp; linarith, rfl⟩
  | transferOut amount =>
    simp only [applyOp, transferOutOp] at h
    split at h
    · simp at h
    · split at h
      · simp at h
      · rename_i hguard hbal
        simp only [decide_eq_true_eq, not_lt] at hbal
        simp only [Except.ok.injEq] at h
        subst h
        exact ⟨by simp; linarith, rfl⟩
  | transferIn amount senderBalance =>
    simp only [applyOp, transferInOp] at h
    split at h
    · simp at h
    · split at h
      · simp at h
      · rename_i hguard hbal
        simp only [Bool.or_eq_true, decide_eq_true_eq, not_or] at hguard
        simp only [Except.ok.injEq] at h
        subst h
        exact ⟨by simp; linarith [hguard.1], rfl⟩
  | joinContest now uid tid =>
    simp only [applyOp, joinContestOp] at h
    split at h
    · simp at h
    · split at h
      · simp at h
      · split at h
        · simp at h
        · split at h
          · simp at h
          · rename_i hbal hdup
            simp only [decide_eq_true_eq, not_lt] at hbal
            split at h
            · simp at h
            · rename_i c' hadd
              simp only [Except.ok.injEq] at h
              subst h
              exact ⟨by simp; linarith, addParticipant_entryFee _ _ _ _ _ hadd⟩
  | leaveContest uid =>
    simp only [applyOp, leaveContestOp] at h
    split at h
    · simp at h
    · split at h
      · simp at h
      · split at h
        · simp at h
        · rename_i c' hrem
          simp only [Except.ok.injEq] at h
          subst h
          exact ⟨by simp; linarith, removeParticipant_entryFee _ _ _ hrem⟩

/-- Any sequence of route invocations keeps the balance non-negative. -/
theorem runOps_nonneg (s : UserState) (ops : List WalletOp)
    (hb : 0 ≤ s.wallet.balance) (hf : 0 ≤ s.contest.entryFee) :
    0 ≤ (runOps s ops).wallet.balance := by
  induction ops generalizing s with
  | nil => simpa [runOps] using hb
  | cons op ops ih =>
    unfold runOps
    rcases hres : applyOp s op with e | s'
    · exact ih s hb hf
    · obtain ⟨hb', hfeq⟩ := applyOp_nonneg s s' op hb hf hres
      exact ih s' hb' (by rw [hfeq]; exact hf)

/-- C2: starting from a non-negative balance (and the schema-guaranteed
non-negative entry fee), no sequence of the wallet-mutating operations — deposit,
withdrawal, transfer (either side), contest join, contest leave — drives the
balance below zero; each debit exceeding the current balance (a withdrawal or
transfer within its validated range, or a contest join whose other guards pass) is
rejected with the insufficient-funds error of its route; and a rejected operation
leaves the state exactly as it was (no partial application). -/
theorem wallet_no_negative_balance (s : UserState) (ops : List WalletOp)
    (amount : Rat) (now : Int) (uid tid : Nat) :
    (0 ≤ s.wallet.balance → 0 ≤ s.contest.entryFee →
      0 ≤ (runOps s ops).wallet.balance)
    ∧ (100 ≤ amount → amount ≤ 50000 → s.wallet.balance < amount →
        applyOp s (WalletOp.withdraw amount) = Except.error ("Insufficient balance"))
    ∧ (10 ≤ amount → amount ≤ 10000 → s.wallet.balance < amount →
        applyOp s (WalletOp.transferOut amount) = Except.error ("Insufficient balance"))
    ∧ (s.contest.isActive = true → s.contest.isVisible = true →
        s.contest.isRegistrationOpen now = true →
        s.wallet.balance < s.contest.entryFee →
        applyOp s (WalletOp.joinContest now uid tid)
          = Except.error ("Insufficient wallet balance"))
    ∧ (∀ op e ops2, applyOp s op = Except.error e →
        runOps s (op :: ops2) = runOps s ops2) := by
  refine ⟨fun hb hf => runOps_nonneg s ops hb hf, ?_, ?_, ?_, ?_⟩
  · intro h1 h2 h3
    have hg : ¬ (amount < 100 ∨ amount > 50000) := by
      push_neg
      exact ⟨h1, h2⟩
    simp [applyOp, withdrawOp, hg, h3]
  · intro h1 h2 h3
    have hg : ¬ (amount < 10 ∨ amount > 10000) := by
      push_neg
      exact ⟨h1, h2⟩
    simp [applyOp, transferOutOp, hg, h3]
  · intro ha hv hr h3
    simp [applyOp, joinContestOp, ha, hv, hr, h3]
  · intro op e ops2 herr
    simp only [runOps, herr]

/-- A user with balance 100 facing the open single-entry contest. -/
def walletW : UserState :=
  { wallet := { balance := 100 }, contest := singleEntryContest }

/-- C2, witness: a deposit followed by an over-large withdrawal leaves the balance
non-negative, and a withdrawal of 500 against balance 100 is rejected with the
insufficient-funds error. -/
theorem wallet_no_negative_balance_witness :
    0 ≤ (runOps walletW [WalletOp.deposit 20, WalletOp.withdraw 5000]).wallet.balance
    ∧ applyOp walletW (WalletOp.withdraw 500)
        = Except.error ("Insufficient balance") := by
  refine ⟨(wallet_no_negative_balance walletW
      [WalletOp.deposit 20, WalletOp.withdraw 5000] 500 0 1 1).1 (by decide) (by decide),
    (wallet_no_negative_balance walletW [] 500 0 1 1).2.1
      (by decide) (by decide) (by decide)⟩

/-! ## Theorems: roster budget and scoring (claims C8, C9, C10) -/

/-- Apply a sequence of `addPlayer` calls; a rejected call leaves the roster as it
was (every `addPlayer` guard throws before mutating). -/
def addPlayerSeq (t : FantasyTeam) : List Player → FantasyTeam
  | [] => t
  | p :: ps =>
    match t.addPlayer p with
    | Except.ok t' => addPlayerSeq t' ps
    | Except.error _ => addPlayerSeq t ps

/-- A successful `addPlayer` call appends the player, adds its price to
`teamValue`, keeps `teamValue ≤ 100`, and maintains
`remainingBudget = 100 - teamValue`. -/
theorem addPlayer_ok (t : FantasyTeam) (p : Player) (t' : FantasyTeam)
    (h : t.addPlayer p = Except.ok t') :
    t'.teamValue = t.teamValue + p.price
    ∧ t'.teamValue ≤ 100
    ∧ t'.remainingBudget = 100 - t'.teamValue
    ∧ t'.players = t.players ++
        [{ playerId := p.id, name := p.name, role := p.role, team := p.teamName,
           price := p.price }] := by
  unfold FantasyTeam.addPlayer at h
  split at h
  · simp at h
  · split at h
    · simp at h
    · split at h
      · simp at h
      · split at h
        · simp at h
        · rename_i hbudget _
          simp only [decide_eq_true_eq, not_lt] at hbudget
          simp only [Except.ok.injEq] at h
          subst h
          refine ⟨rfl, by simpa using hbudget, rfl, rfl⟩

/-- Any sequence of `addPlayer` calls preserves `teamValue ≤ 100`. -/
theorem addPlayerSeq_budget (ps : List Player) (t : FantasyTeam)
    (hb : t.teamValue ≤ 100) : (addPlayerSeq t ps).teamValue ≤ 100 := by
  induction ps generalizing t with
  | nil => simpa [addPlayerSeq] using hb
  | cons p ps ih =>
    unfold addPlayerSeq
    rcases hres : t.addPlayer p with e | t'
    · exact ih t hb
    · exact ih t' (addPlayer_ok t p t' hres).2.1

/-- C8: no sequence of `addPlayer` calls can leave `teamValue > 100`; a call in
draft state for a not-yet-rostered player whose price would push `teamValue` past
100 fails with the budget error (leaving the roster unchanged, since the sequence
semantics discard rejected calls), and a successful call adds the player, keeps
`teamValue ≤ 100`, and maintains `remainingBudget = 100 - teamValue`. -/
theorem addPlayer_budget_invariant (t : FantasyTeam) (p : Player) (ps : List Player) :
    (t.teamValue ≤ 100 → (addPlayerSeq t ps).teamValue ≤ 100)
    ∧ (t.status = TeamStatus.draft →
        (t.players.find? (fun q => q.playerId == p.id)).isSome = false →
        t.teamValue + p.price > 100 →
        t.addPlayer p = Except.error ("Insufficient budget"))
    ∧ (∀ t', t.addPlayer p = Except.ok t' →
        t'.teamValue = t.teamValue + p.price
        ∧ t'.teamValue ≤ 100
        ∧ t'.remainingBudget = 100 - t'.teamValue
        ∧ t'.players = t.players ++
            [{ playerId := p.id, name := p.name, role := p.role, team := p.teamName,
               price := p.price }])
    ∧ (∀ e ps2, t.addPlayer p = Except.error e →
        addPlayerSeq t (p :: ps2) = addPlayerSeq t ps2) := by
  refine ⟨addPlayerSeq_budget ps t, ?_, fun t' h => addPlayer_ok t p t' h, ?_⟩
  · intro hdraft hnodup hover
    have hst : (t.status != TeamStatus.draft) = false := by simp [hdraft]
    simp [FantasyTeam.addPlayer, hst, hnodup, hover]
  · intro e ps2 herr
    simp only [addPlayerSeq, herr]

/-- An under-budget draft roster holding one player priced 60. -/
def draftTeam : FantasyTeam :=
  { sport := Sport.cricket,
    players := [{ playerId := 1, name := "A", role := "bat", team := "X", price := 60 }],
    teamValue := 60,
    remainingBudget := 40 }

/-- A player priced 50, too expensive for `draftTeam`. -/
def bigPlayer : Player :=
  { id := 2, name := "B", role := "bowl", teamName := "Y", price := 50 }

/-- C8, witness: adding a 50-priced player to a 60-valued roster is rejected with
the budget error, and any `addPlayer` sequence from the roster stays within 100. -/
theorem addPlayer_budget_invariant_witness :
    (addPlayerSeq draftTeam [bigPlayer, bigPlayer]).teamValue ≤ 100
    ∧ draftTeam.addPlayer bigPlayer = Except.error ("Insufficient budget") := by
  refine ⟨(addPlayer_budget_invariant draftTeam bigPlayer [bigPlayer, bigPlayer]).1
      (by decide),
    (addPlayer_budget_invariant draftTeam bigPlayer []).2.1 rfl (by decide)
      (by norm_num [draftTeam, bigPlayer])⟩

/-- C9: on a cricket roster, `calculatePoints` writes into each player
`points = multiplier × (runs×1 + wickets×10 + catches×10 + stumping×10 + runOuts×6)`
with multiplier 2 for the captain, 1.5 for the vice-captain and 1 otherwise, and
sums these into `totalPoints`; in particular a captain with 40 runs, 2 wickets and
no other events contributes exactly 120 points. -/
theorem calculatePoints_cricket (t : FantasyTeam) (now : Int)
    (hs : t.sport = Sport.cricket) :
    ((t.calculatePoints now).players = t.players.map (fun p =>
      { p with points :=
          (if p.isCaptain then 2 else if p.isViceCaptain then 3 / 2 else 1)
            * ((p.performance.runs : Rat) * 1 + (p.performance.wickets : Rat) * 10
              + (p.performance.catches : Rat) * 10 + (p.performance.stumping : Rat) * 10
              + (p.performance.runOut : Rat) * 6) }))
    ∧ ((t.calculatePoints now).totalPoints = (t.players.map (fun p =>
        (if p.isCaptain then 2 else if p.isViceCaptain then 3 / 2 else 1)
          * ((p.performance.runs : Rat) * 1 + (p.performance.wickets : Rat) * 10
            + (p.performance.catches : Rat) * 10 + (p.performance.stumping : Rat) * 10
            + (p.performance.runOut : Rat) * 6))).sum)
    ∧ (∀ p : RosterPlayer, p.isCaptain = true → p.performance.runs = 40 →
        p.performance.wickets = 2 → p.performance.catches = 0 →
        p.performance.stumping = 0 → p.performance.runOut = 0 →
        playerMultiplier p * rawPoints t.sport p.performance = 120) := by
  refine ⟨?_, ?_, ?_⟩
  · simp only [FantasyTeam.calculatePoints, playerMultiplier, rawPoints, hs]
  · simp only [FantasyTeam.calculatePoints, playerMultiplier, rawPoints, hs,
      List.map_map]
    rfl
  · intro p hc hruns hwick hcat hstump hro
    rw [hs]
    simp only [playerMultiplier, rawPoints, hc, if_true, hruns, hwick, hcat, hstump, hro]
    norm_num

/-- A cricket roster whose captain (player 1) scored 40 runs and took 2 wickets. -/
def captainTeam : FantasyTeam :=
  { sport := Sport.cricket,
    players :=
      [{ playerId := 1, name := "Cap", role := "all", team := "X", price := 10,
         isCaptain := true,
         performance := { runs := 40, wickets := 2 } },
       { playerId := 2, name := "Other", role := "bat", team := "X", price := 9,
         performance := { runs := 7 } }],
    captain := some 1,
    teamValue := 19,
    remainingBudget := 81 }

/-- C9, witness: the captain of `captainTeam` contributes exactly
2 × (40×1 + 2×10) = 120 points. -/
theorem calculatePoints_cricket_witness :
    playerMultiplier
        { playerId := 1, name := "Cap", role := "all", team := "X", price := 10,
          isCaptain := true, performance := { runs := 40, wickets := 2 } }
      * rawPoints captainTeam.sport
        ({ playerId := 1, name := "Cap", role := "all", team := "X", price := 10,
           isCaptain := true,
           performance := { runs := 40, wickets := 2 } : RosterPlayer }).performance
      = 120 :=
  (calculatePoints_cricket captainTeam 0 rfl).2.2
    { playerId := 1, name := "Cap", role := "all", team := "X", price := 10,
      isCaptain := true, performance := { runs := 40, wickets := 2 } }
    rfl rfl rfl rfl rfl rfl

/-- `markCaptain` touches only the `isCaptain` flags: the underlying player ids are
unchanged, and the first player with the given id ends up flagged. -/
theorem find?_markViceCaptain_markCaptain (l : List RosterPlayer) (pid : Nat) :
    (markViceCaptain (markCaptain l pid) pid).find? (fun q => q.playerId == pid)
      = (l.find? (fun q => q.playerId == pid)).map
          (fun q => { q with isCaptain := true, isViceCaptain := true }) := by
  induction l with
  | nil => rfl
  | cons p ps ih =>
    by_cases hp : (p.playerId == pid) = true
    · simp only [markCaptain, hp, if_true, markViceCaptain]
      rw [List.find?_cons_of_pos _ (by simpa using hp),
        List.find?_cons_of_pos _ (by simpa using hp)]
      rfl
    · simp only [markCaptain, hp, Bool.false_eq_true, if_false, markViceCaptain]
      rw [List.find?_cons_of_neg _ (by simpa using hp),
        List.find?_cons_of_neg _ (by simpa using hp)]
      exact ih

/-- `markCaptain` leaves every `isViceCaptain` flag and every player id unchanged,
so a player findable before is findable after. -/
theorem find?_isSome_markCaptain (l : List RosterPlayer) (pid : Nat) :
    ((markCaptain l pid).find? (fun q => q.playerId == pid)).isSome
      = (l.find? (fun q => q.playerId == pid)).isSome := by
  induction l with
  | nil => rfl
  | cons p ps ih =>
    by_cases hp : (p.playerId == pid) = true
    · simp only [markCaptain, hp, if_true]
      rw [List.find?_cons_of_pos _ (by simpa using hp),
        List.find?_cons_of_pos _ (by simpa using hp)]
      rfl
    · simp only [markCaptain, hp, Bool.false_eq_true, if_false]
      rw [List.find?_cons_of_neg _ (by simpa using hp),
        List.find?_cons_of_neg _ (by simpa using hp)]
      exact ih

/-- Every player flagged captain after `calculatePoints` carries exactly twice its
raw points — the vice-captain multiplier is never stacked on top. -/
theorem calculatePoints_captain_double (t : FantasyTeam) (now : Int)
    (q : RosterPlayer) (hq : q ∈ (t.calculatePoints now).players)
    (hc : q.isCaptain = true) :
    q.points = 2 * rawPoints t.sport q.performance := by
  simp only [FantasyTeam.calculatePoints, List.mem_map] at hq
  obtain ⟨p, hp, hpq⟩ := hq
  subst hpq
  have hc' : p.isCaptain = true := hc
  simp [playerMultiplier, hc']

/-- C10: on a draft roster containing player `pid`, `setCaptain pid` then
`setViceCaptain pid` both succeed: the resulting team records `captain` and
`viceCaptain` as the same player, that player carries both `isCaptain` and
`isViceCaptain`, and `calculatePoints` then multiplies its raw points by exactly 2
(the captain branch shadows the vice-captain branch). -/
theorem setCaptain_setViceCaptain_same (t : FantasyTeam) (pid : Nat) (now : Int)
    (hdraft : t.status = TeamStatus.draft)
    (hmem : (t.players.find? (fun q => q.playerId == pid)).isSome = true) :
    ∃ t₁ t₂,
      t.setCaptain pid = Except.ok t₁
      ∧ t₁.setViceCaptain pid = Except.ok t₂
      ∧ t₂.captain = some pid
      ∧ t₂.viceCaptain = some pid
      ∧ (∃ q, t₂.players.find? (fun x => x.playerId == pid) = some q
          ∧ q.isCaptain = true ∧ q.isViceCaptain = true)
      ∧ (∀ q ∈ (t₂.calculatePoints now).players, q.isCaptain = true →
          q.points = 2 * rawPoints t₂.sport q.performance) := by
  have hst : (t.status != TeamStatus.draft) = false := by simp [hdraft]
  have hnone1 : (t.players.find? (fun q => q.playerId == pid)).isNone = false := by
    rcases hres : t.players.find? (fun q => q.playerId == pid) with _ | q
    · rw [hres] at hmem
      simp at hmem
    · rw [hres]
      rfl
  have hnone2 :
      ((markCaptain t.players pid).find? (fun q => q.playerId == pid)).isNone = false := by
    rcases hres : (markCaptain t.players pid).find? (fun q => q.playerId == pid) with _ | q
    · have := find?_isSome_markCaptain t.players pid
      rw [hres, hmem] at this
      simp at this
    · rw [hres]
      rfl
  refine ⟨{ t with players := markCaptain t.players pid, captain := some pid },
    { t with players := markViceCaptain (markCaptain t.players pid) pid,
             captain := some pid, viceCaptain := some pid }, ?_, ?_, rfl, rfl, ?_, ?_⟩
  · simp [FantasyTeam.setCaptain, hst, hnone1]
  · simp [FantasyTeam.setViceCaptain, hst, hnone2]
  · rw [find?_markViceCaptain_markCaptain]
    rcases hfind : t.players.find? (fun q => q.playerId == pid) with _ | q
    · rw [hfind] at hmem
      simp at hmem
    · exact ⟨{ q with isCaptain := true, isViceCaptain := true }, by simp [hfind], rfl, rfl⟩
  · intro q hq hc
    exact calculatePoints_captain_double _ now q hq hc

/-- C10, witness: on `draftTeam` (which rosters player 1), making player 1 both
captain and vice-captain succeeds and yields the doubled multiplier. -/
theorem setCaptain_setViceCaptain_same_witness :
    ∃ t₁ t₂,
      draftTeam.setCaptain 1 = Except.ok t₁
      ∧ t₁.setViceCaptain 1 = Except.ok t₂
      ∧ t₂.captain = some 1
      ∧ t₂.viceCaptain = some 1
      ∧ (∃ q, t₂.players.find? (fun x => x.playerId == 1) = some q
          ∧ q.isCaptain = true ∧ q.isViceCaptain = true)
      ∧ (∀ q ∈ (t₂.calculatePoints 0).players, q.isCaptain = true →
          q.points = 2 * rawPoints t₂.sport q.performance) :=
  setCaptain_setViceCaptain_same draftTeam 1 0 rfl (by decide)

end TacticsTurf
